import Mathlib

/-!
Verification of the package synchronization core of django-package-monitor.

The two repository source files, `management/commands/refresh_packages.py`
(the sync engine: `create_package_version`, `local`, `remote`, `clean`) and
`admin.py` (the `check_pypi` bulk action and `UpdateAvailableListFilter`),
are embedded shallowly below.  The persistent store (Django ORM) is modelled
as a `List PackageVersion` threaded explicitly; queryset operations become
list operations.  The `PackageVersion` model itself (its fields and its
`update_from_pypi` method) lives in `models.py`, which is not part of the
sources here, so those definitions are modelled from the specification and
are marked as such in their doc comments.
-/

namespace PackageMonitor

/-! ### Version model (spec §4.1, modelled from the spec)

A version string parses to its dotted numeric segments; strings with a
non-numeric or empty segment are unparseable.  Versions are ordered
lexicographically on segments. -/

/-- Numeric value of a decimal digit character, `none` otherwise. -/
def charDigit? (c : Char) : Option Nat :=
  if c.isDigit then some (c.toNat - 48) else none

/-- Modelled from the spec: parse the characters of a dotted numeric version
string, accumulating the current segment; fails on any non-digit character
or empty segment. -/
def parseVerAux : List Char → Option Nat → Option (List Nat)
  | [], none => none
  | [], some n => some [n]
  | c :: cs, acc =>
    if c = '.' then
      match acc, parseVerAux cs none with
      | some n, some rest => some (n :: rest)
      | _, _ => none
    else
      match charDigit? c with
      | some d => parseVerAux cs (some (acc.getD 0 * 10 + d))
      | none => none

/-- Modelled from the spec (§4.1): parse a raw version string into its list
of numeric segments, or `none` when unparseable. -/
def parseVersion (s : String) : Option (List Nat) :=
  parseVerAux s.data none

/-- Strict lexicographic order on version segment lists (a proper prefix is
smaller, so `1.0 < 1.0.0`, matching the spec's segment-count choice). -/
def verLt : List Nat → List Nat → Bool
  | [], [] => false
  | [], _ :: _ => true
  | _ :: _, [] => false
  | a :: as, b :: bs =>
    if a < b then true else if b < a then false else verLt as bs

/-- Maximum of a list of parsed versions, `none` when empty. -/
def maxVersion? (vs : List (List Nat)) : Option (List Nat) :=
  vs.foldl (fun acc v =>
    match acc with
    | none => some v
    | some m => if verLt m v then some v else some m) none

/-- Smallest version in `vs` strictly greater than the current version,
`none` when there is no current version or no greater version. -/
def minGreater? (cur : Option (List Nat)) (vs : List (List Nat)) :
    Option (List Nat) :=
  match cur with
  | none => none
  | some c =>
    (vs.filter (fun v => verLt c v)).foldl (fun acc v =>
      match acc with
      | none => some v
      | some m => if verLt v m then some v else some m) none

/-! ### Data model (spec §3, modelled from the spec: `models.py` is not
among the sources) -/

/-- The diff-status classification of the gap between current and latest
version. -/
inductive DiffStatus
  | unknown
  | uptodate
  | patch
  | minor
  | major
deriving DecidableEq, Repr

/-- Modelled from the spec (§3): the persisted `PackageVersion` record. -/
structure PackageVersion where
  package_name : String
  is_editable : Bool
  is_parseable : Bool
  current_version : Option (List Nat) := none
  next_version : Option (List Nat) := none
  latest_version : Option (List Nat) := none
  raw : Option String := none
  licence : Option String := none
  python_support : List String := []
  supports_py3 : Bool := false
  diff_status : DiffStatus := .unknown
  checked_pypi_at : Option Nat := none
  url : Option String := none
deriving DecidableEq, Repr

/-- A manifest requirement as produced by the requirements reader
(spec §4.2): optional project name, optional install URI, optional pinned
version string, and the editable/local flag. -/
structure Requirement where
  name : Option String := none
  uri : Option String := none
  specs : Option String := none
  editable : Bool := false
deriving DecidableEq, Repr

/-- Python's `a or b` on optional strings: an empty string is falsy, so
`name = r.name or r.uri` (refresh_packages.py line 38) falls through to the
URI when the name is absent or empty. -/
def pyOr (a b : Option String) : Option String :=
  match a with
  | some s => if s = "" then b else some s
  | none => b

/-- The lookup key of a requirement, `r.name or r.uri` from the source. -/
def reqKey (r : Requirement) : Option String :=
  pyOr r.name r.uri

/-- Modelled from the spec (§4.5): the record constructed from a requirement
by `PackageVersion(requirement=...)` — name from the requirement,
`is_editable` from the local/VCS flag, `current_version` parsed with
graceful fallback to `is_parseable = false`; index-derived fields start
unset and `diff_status` starts `unknown`. -/
def PackageVersion.fromRequirement (r : Requirement) : PackageVersion :=
  { package_name := (reqKey r).getD ""
    is_editable := r.editable
    is_parseable := match r.specs with
      | none => true
      | some s => (parseVersion s).isSome
    current_version := r.specs.bind parseVersion }

/-! ### Index client (spec §4.3, modelled from the spec) -/

/-- Modelled from the spec (§4.3): the data a successful index query
returns for one package. -/
structure IndexData where
  versions : List String
  licence : Option String := none
  classifiers : List String := []
  url : Option String := none
  rawData : String := ""
deriving DecidableEq, Repr

/-- The two failures an index query may raise (spec §4.3/§7). -/
inductive IndexFailure
  | packageNotFound
  | indexUnavailable
deriving DecidableEq, Repr

/-- An index is a query function from package name to data or failure. -/
def Index : Type :=
  String → Except IndexFailure IndexData

/-- Modelled from the spec (§3): `supports_py3` derived from the
Python-support classifier strings. -/
def derivePy3 (classifiers : List String) : Bool :=
  classifiers.any (fun c => decide (c = "Programming Language :: Python :: 3"))

/-- Modelled from the spec (§4.4): the pure diff classifier — editable or
missing data give `unknown`; equal versions are up to date; otherwise the
first differing leading segment decides major/minor/patch severity. -/
def classify (current latest : Option (List Nat)) (is_editable : Bool) :
    DiffStatus :=
  if is_editable then .unknown
  else
    match latest, current with
    | none, _ => .unknown
    | _, none => .unknown
    | some l, some c =>
      if c = l then .uptodate
      else if c.getD 0 0 ≠ l.getD 0 0 then .major
      else if c.getD 1 0 ≠ l.getD 1 0 then .minor
      else .patch

/-- Modelled from the spec (§4.5): `PackageVersion.update_from_pypi`
(`models.py`, not among the sources).  On success it sets every
index-derived field of the record — latest/next version computed from the
parsed published versions, licence, classifiers, `supports_py3`, URL, raw
payload, the query timestamp `t` — and recomputes `diff_status`; on failure
it raises, leaving the record untouched. -/
def update_from_pypi (index : Index) (t : Nat) (pv : PackageVersion) :
    Except IndexFailure PackageVersion :=
  match index pv.package_name with
  | .error e => .error e
  | .ok d =>
    let parsed := d.versions.filterMap parseVersion
    let latest := maxVersion? parsed
    .ok { pv with
      latest_version := latest
      next_version := minGreater? pv.current_version parsed
      licence := d.licence
      python_support := d.classifiers
      supports_py3 := derivePy3 d.classifiers
      url := d.url
      raw := some d.rawData
      checked_pypi_at := some t
      diff_status := classify pv.current_version latest pv.is_editable }

/-! ### Remote reconciliation (`remote`, refresh_packages.py lines 50–67) -/

/-- The fate of one record in the `remote` loop body: editable records are
skipped, a successful `update_from_pypi` replaces the record, a failure
leaves it unchanged. -/
def remoteStep (index : Index) (t : Nat) (pv : PackageVersion) :
    PackageVersion :=
  if pv.is_editable then pv
  else
    match update_from_pypi index t pv with
    | .ok pv' => pv'
    | .error _ => pv

/-- The results-dict contribution of one record in the `remote` loop body:
`results[pv.diff_status].append(pv)` runs only after a successful update,
keyed by the record's freshly recomputed status. -/
def remoteEntry (index : Index) (t : Nat) (pv : PackageVersion) :
    Option (DiffStatus × PackageVersion) :=
  if pv.is_editable then none
  else
    match update_from_pypi index t pv with
    | .ok pv' => some (pv'.diff_status, pv')
    | .error _ => none

/-- The `for pv in packages` loop of `remote` (lines 56–66): returns the
final state of each processed record, in order, together with the list of
`(diff_status, record)` result entries in iteration order. -/
def remoteLoop (index : Index) (t : Nat) :
    List PackageVersion → List PackageVersion × List (DiffStatus × PackageVersion)
  | [] => ([], [])
  | pv :: rest =>
    let res := remoteLoop index t rest
    if pv.is_editable then (pv :: res.1, res.2)
    else
      match update_from_pypi index t pv with
      | .ok pv' => (pv' :: res.1, (pv'.diff_status, pv') :: res.2)
      | .error _ => (pv :: res.1, res.2)

/-- The queryset `PackageVersion.objects.exclude(is_editable=True)` (line 55). -/
def excludeEditable (store : List PackageVersion) : List PackageVersion :=
  store.filter (fun pv => !pv.is_editable)

/-- Line 54–55, `if not packages:` — when no batch is passed (or the passed
batch is empty, which Python's `not` also treats as absent), the batch is
all non-editable stored records. -/
def remoteTargets (store : List PackageVersion)
    (packages : Option (List PackageVersion)) : List PackageVersion :=
  match packages with
  | none => excludeEditable store
  | some ps => if ps.isEmpty then excludeEditable store else ps

/-- The value `remote` returns: the `defaultdict(list)` keyed by diff
status, kept here as the list of entries in insertion order, plus the
`refreshed_at` timestamp entry set at the end of the run (line 66). -/
structure SyncResults where
  entries : List (DiffStatus × PackageVersion)
  refreshed_at : Nat
deriving DecidableEq, Repr

/-- The entry `results[s]`: the records filed under one diff status. -/
def SyncResults.byStatus (res : SyncResults) (s : DiffStatus) :
    List PackageVersion :=
  (res.entries.filter (fun e => decide (e.1 = s))).map Prod.snd

/-- The function `remote(packages=None)` (lines 50–67).  The first component is the
final state of the records of the processed batch (the source mutates them
in place in the store); the second is the returned results mapping. -/
def syncRemote (index : Index) (t : Nat) (store : List PackageVersion)
    (packages : Option (List PackageVersion)) :
    List PackageVersion × SyncResults :=
  let pkgs := remoteTargets store packages
  let res := remoteLoop index t pkgs
  (res.1, ⟨res.2, t⟩)

/-! ### Local reconciliation and reset (`local`, `clean`,
refresh_packages.py lines 19–47 and 70–73) -/

/-- The store's `create` (spec §6): fails with `DuplicateName`
(`IntegrityError`) when a record with the same name exists, otherwise
appends the new record. -/
def createRecord (store : List PackageVersion) (pv : PackageVersion) :
    Option (List PackageVersion) :=
  if store.any (fun q => decide (q.package_name = pv.package_name)) then none
  else some (store ++ [pv])

/-- The function `create_package_version` (lines 19–26): attempt the creation; on
`IntegrityError` the store is unchanged.  Either way the returned value is
the result of `.save()` — which is `None` in Django — so the second
component is always `none`. -/
def create_package_version (store : List PackageVersion) (r : Requirement) :
    List PackageVersion × Option PackageVersion :=
  match createRecord store (PackageVersion.fromRequirement r) with
  | some store' => (store', none)
  | none => (store, none)

/-- The lookup `PackageVersion.objects.get(package_name=name)` (line 40): `none`
stands for `DoesNotExist` (and a `None` lookup key matches no record,
since every stored name is a string). -/
def getByName (store : List PackageVersion) (name : Option String) :
    Option PackageVersion :=
  match name with
  | none => none
  | some n => store.find? (fun pv => decide (pv.package_name = n))

/-- One iteration of the `local` loop (lines 35–45): create, and when the
creation call yields no record (it always does, see
`create_package_version`), fall back to the get-by-name lookup with key
`r.name or r.uri`; `none` means the requirement is skipped with a logged
error. -/
def localStep (store : List PackageVersion) (r : Requirement) :
    List PackageVersion × Option PackageVersion :=
  let res := create_package_version store r
  match res.2 with
  | some pv => (res.1, some pv)
  | none => (res.1, getByName res.1 (reqKey r))

/-- The function `local()` (lines 29–47): fold the requirement list through the store,
appending each found-or-created record to `packages`; a requirement whose
step produces no record contributes nothing. -/
def syncLocal : List PackageVersion → List Requirement →
    List PackageVersion × List PackageVersion
  | store, [] => (store, [])
  | store, r :: rest =>
    match localStep store r with
    | (store₁, some pv) =>
      ((syncLocal store₁ rest).1, pv :: (syncLocal store₁ rest).2)
    | (store₁, none) => syncLocal store₁ rest

/-- The function `clean()` (lines 70–73): `PackageVersion.objects.all().delete()`. -/
def clean (_store : List PackageVersion) : List PackageVersion :=
  []

/-- The queryset `PackageVersion.objects.all()`: list every stored record. -/
def allRecords (store : List PackageVersion) : List PackageVersion :=
  store

/-! ### Admin (`admin.py`) -/

/-- The `check_pypi` bulk action (admin.py lines 28–36): update each
selected record from PyPI, skipping editable ones; an exception from
`update_from_pypi` is not caught there and aborts the action. -/
def check_pypi (index : Index) (t : Nat) :
    List PackageVersion → Except IndexFailure (List PackageVersion)
  | [] => .ok []
  | p :: rest =>
    if p.is_editable then
      match check_pypi index t rest with
      | .ok out => .ok (p :: out)
      | .error e => .error e
    else
      match update_from_pypi index t p with
      | .error e => .error e
      | .ok p' =>
        match check_pypi index t rest with
        | .ok out => .ok (p' :: out)
        | .error e => .error e

/-- The filter `UpdateAvailableListFilter.queryset` (admin.py lines 57–72): `"-1"`
keeps records with null `latest_version`; `"0"` keeps records with both
versions non-null and equal; `"1"` keeps records with both versions
non-null and different; any other value leaves the queryset unfiltered. -/
def updateAvailableFilter (value : Option String)
    (qs : List PackageVersion) : List PackageVersion :=
  if value = some "-1" then
    qs.filter (fun p => p.latest_version.isNone)
  else if value = some "0" then
    qs.filter (fun p =>
      p.current_version.isSome && p.latest_version.isSome &&
        decide (p.latest_version = p.current_version))
  else if value = some "1" then
    qs.filter (fun p =>
      p.current_version.isSome && p.latest_version.isSome &&
        !decide (p.latest_version = p.current_version))
  else qs

/-! ### Concrete fixtures used by the witness theorems -/

/-- Decidable equality for `Except` results, used to evaluate the model on
concrete inputs. -/
instance {ε α : Type} [DecidableEq ε] [DecidableEq α] :
    DecidableEq (Except ε α) := fun a b =>
  match a, b with
  | .error e, .error f =>
    if h : e = f then .isTrue (by rw [h]) else .isFalse (by simp [h])
  | .error _, .ok _ => .isFalse (by simp)
  | .ok _, .error _ => .isFalse (by simp)
  | .ok x, .ok y =>
    if h : x = y then .isTrue (by rw [h]) else .isFalse (by simp [h])

/-- Index data returned for every package the test index knows. -/
def idxData : IndexData :=
  { versions := ["1", "2"], licence := some "MIT"
    classifiers := ["Programming Language :: Python :: 3"]
    url := some "u", rawData := "r" }

/-- A test index that is unavailable for package `"b"` and answers with
`idxData` for every other name. -/
def testIndex : Index := fun name =>
  if name = "b" then .error .indexUnavailable else .ok idxData

/-- Non-editable record `"a"` at version 1. -/
def pvA : PackageVersion :=
  { package_name := "a", is_editable := false, is_parseable := true
    current_version := some [1] }

/-- Non-editable record `"b"` at version 1 (the test index fails for it). -/
def pvB : PackageVersion :=
  { package_name := "b", is_editable := false, is_parseable := true
    current_version := some [1] }

/-- Non-editable record `"c"` at version 2. -/
def pvC : PackageVersion :=
  { package_name := "c", is_editable := false, is_parseable := true
    current_version := some [2] }

/-- An editable record. -/
def pvE : PackageVersion :=
  { package_name := "e", is_editable := true, is_parseable := false }

/-- A record with no name, as created from a blank requirement. -/
def pvBlank : PackageVersion :=
  { package_name := "", is_editable := false, is_parseable := true }

/-- A record with no current version but a known latest version. -/
def pvGap : PackageVersion :=
  { package_name := "g", is_editable := false, is_parseable := false
    latest_version := some [1] }

/-- A requirement pinning package `"a"` at version 1. -/
def reqA : Requirement :=
  { name := some "a", specs := some "1" }

/-- A requirement with neither name nor URI. -/
def reqBlank : Requirement :=
  {}

/-! ### Lemmas about the remote loop -/

/-- The final states produced by the remote loop are the per-record steps,
in order. -/
theorem remoteLoop_fst (index : Index) (t : Nat) (l : List PackageVersion) :
    (remoteLoop index t l).1 = l.map (remoteStep index t) := by
  induction l with
  | nil => rfl
  | cons pv rest ih =>
    cases he : pv.is_editable with
    | true => simp [remoteLoop, remoteStep, he, ih]
    | false =>
      cases hu : update_from_pypi index t pv with
      | ok pv' => simp [remoteLoop, remoteStep, he, hu, ih]
      | error e => simp [remoteLoop, remoteStep, he, hu, ih]

/-- The result entries produced by the remote loop are the per-record
entries, in order. -/
theorem remoteLoop_snd (index : Index) (t : Nat) (l : List PackageVersion) :
    (remoteLoop index t l).2 = l.filterMap (remoteEntry index t) := by
  induction l with
  | nil => rfl
  | cons pv rest ih =>
    cases he : pv.is_editable with
    | true => simp [remoteLoop, remoteEntry, he, ih]
    | false =>
      cases hu : update_from_pypi index t pv with
      | ok pv' => simp [remoteLoop, remoteEntry, he, hu, ih]
      | error e => simp [remoteLoop, remoteEntry, he, hu, ih]

/-- A successful index update never touches the record's name, editable
flag or manifest-derived current version. -/
theorem update_from_pypi_preserves (index : Index) (t : Nat)
    (pv pv' : PackageVersion) (h : update_from_pypi index t pv = .ok pv') :
    pv'.package_name = pv.package_name ∧ pv'.is_editable = pv.is_editable ∧
      pv'.current_version = pv.current_version := by
  unfold update_from_pypi at h
  cases hidx : index pv.package_name with
  | error e => rw [hidx] at h; exact absurd h (by simp)
  | ok d =>
    rw [hidx] at h
    simp only [Except.ok.injEq] at h
    subst h
    exact ⟨rfl, rfl, rfl⟩

/-- Updating an already freshly updated record from the same index at the
same time changes nothing. -/
theorem update_from_pypi_idem (index : Index) (t : Nat)
    (pv pv' : PackageVersion) (h : update_from_pypi index t pv = .ok pv') :
    update_from_pypi index t pv' = .ok pv' := by
  unfold update_from_pypi at h ⊢
  cases hidx : index pv.package_name with
  | error e => rw [hidx] at h; exact absurd h (by simp)
  | ok d =>
    rw [hidx] at h
    simp only [Except.ok.injEq] at h
    subst h
    simp [hidx]

/-- The remote loop body never changes a record's editable flag. -/
theorem remoteStep_is_editable (index : Index) (t : Nat)
    (pv : PackageVersion) :
    (remoteStep index t pv).is_editable = pv.is_editable := by
  unfold remoteStep
  cases he : pv.is_editable with
  | true => simp [he]
  | false =>
    cases hu : update_from_pypi index t pv with
    | ok pv' => simp [he, hu, (update_from_pypi_preserves index t pv pv' hu).2.1]
    | error e => simp [he, hu]

/-- The remote loop body is idempotent on a record (same index data, same
clock). -/
theorem remoteStep_idem (index : Index) (t : Nat) (pv : PackageVersion) :
    remoteStep index t (remoteStep index t pv) = remoteStep index t pv := by
  unfold remoteStep
  cases he : pv.is_editable with
  | true => simp [he]
  | false =>
    cases hu : update_from_pypi index t pv with
    | ok pv' =>
      have hed := (update_from_pypi_preserves index t pv pv' hu).2.1
      simp [he, hu, hed ▸ he, update_from_pypi_idem index t pv pv' hu]
    | error e => simp [he, hu]

/-- Unfolding `syncRemote` with no explicit batch into maps over the
non-editable stored records. -/
theorem syncRemote_none (index : Index) (t : Nat)
    (store : List PackageVersion) :
    syncRemote index t store none =
      ((excludeEditable store).map (remoteStep index t),
       ⟨(excludeEditable store).filterMap (remoteEntry index t), t⟩) := by
  simp only [syncRemote, remoteTargets, remoteLoop_fst, remoteLoop_snd]

/-- Unfolding `syncRemote` with a non-empty explicit batch into maps over
that batch. -/
theorem syncRemote_some (index : Index) (t : Nat)
    (store ps : List PackageVersion) (h : ps ≠ []) :
    syncRemote index t store (some ps) =
      (ps.map (remoteStep index t),
       ⟨ps.filterMap (remoteEntry index t), t⟩) := by
  have hemp : ps.isEmpty = false := by simp [List.isEmpty_iff, h]
  simp only [syncRemote, remoteTargets, hemp, Bool.false_eq_true, if_false,
    remoteLoop_fst, remoteLoop_snd]

/-- Membership in one status bucket of the results is membership of the
corresponding entry in the entry list. -/
theorem mem_byStatus (res : SyncResults) (s : DiffStatus)
    (pv : PackageVersion) :
    pv ∈ res.byStatus s ↔ (s, pv) ∈ res.entries := by
  simp only [SyncResults.byStatus, List.mem_map, List.mem_filter,
    decide_eq_true_eq]
  constructor
  · rintro ⟨⟨s', pv'⟩, ⟨hm, hs⟩, hp⟩
    cases hs
    cases hp
    exact hm
  · intro hm
    exact ⟨(s, pv), ⟨hm, rfl⟩, rfl⟩

/-- What a produced result entry means: the record was not editable and its
index update succeeded, and it is filed under its own fresh status. -/
theorem remoteEntry_eq_some (index : Index) (t : Nat)
    (pv : PackageVersion) (s : DiffStatus) (q : PackageVersion) :
    remoteEntry index t pv = some (s, q) ↔
      pv.is_editable = false ∧ update_from_pypi index t pv = .ok q ∧
        q.diff_status = s := by
  unfold remoteEntry
  cases he : pv.is_editable with
  | true => simp
  | false =>
    cases hu : update_from_pypi index t pv with
    | ok q' =>
      simp only [hu]
      constructor
      · intro hsome
        obtain ⟨hs, rfl⟩ : q'.diff_status = s ∧ q' = q := by simpa using hsome
        exact ⟨by simp, rfl, hs⟩
      · rintro ⟨-, hok, hs⟩
        obtain rfl : q' = q := by simpa using hok
        simp [hs]
    | error e => simp [hu]

/-- Claim C1: In `remote()`, a record whose index update fails is left with
every stored field unchanged and contributes nothing to the result set,
while the loop still processes the whole batch: every other record whose
update succeeds ends in its updated state and appears in the results under
its status, regardless of its position relative to the failure. -/
theorem remote_partial_failure_isolated (index : Index) (t : Nat)
    (store pkgs : List PackageVersion) (i : Nat) (p : PackageVersion)
    (e : IndexFailure) (hget : pkgs[i]? = some p)
    (hfail : update_from_pypi index t p = .error e) :
    (syncRemote index t store (some pkgs)).1.length = pkgs.length
    ∧ (syncRemote index t store (some pkgs)).1[i]? = some p
    ∧ remoteEntry index t p = none
    ∧ ∀ (j : Nat) (q q' : PackageVersion), pkgs[j]? = some q → q.is_editable = false →
        update_from_pypi index t q = .ok q' →
        (syncRemote index t store (some pkgs)).1[j]? = some q'
        ∧ q' ∈ (syncRemote index t store (some pkgs)).2.byStatus
            q'.diff_status := by
  have hne : pkgs ≠ [] := by
    intro hnil
    rw [hnil] at hget
    exact absurd hget (by simp)
  rw [syncRemote_some index t store pkgs hne]
  have hstep : remoteStep index t p = p := by
    unfold remoteStep
    cases he : p.is_editable with
    | true => simp
    | false => simp [hfail]
  have hentry : remoteEntry index t p = none := by
    unfold remoteEntry
    cases he : p.is_editable with
    | true => simp
    | false => simp [hfail]
  refine ⟨by simp, ?_, hentry, ?_⟩
  · rw [List.getElem?_map, hget]
    simp [hstep]
  · intro j q q' hj hqe hok
    have hqstep : remoteStep index t q = q' := by
      unfold remoteStep
      simp [hqe, hok]
    refine ⟨by rw [List.getElem?_map, hj]; simp [hqstep], ?_⟩
    rw [mem_byStatus]
    simp only [List.mem_filterMap]
    exact ⟨q, List.getElem?_mem hj,
      (remoteEntry_eq_some index t q q'.diff_status q').mpr ⟨hqe, hok, rfl⟩⟩

/-- The closed instance of C1: in a batch of three records with the index
unavailable for the middle one, the run completes, the middle record is
unchanged and filed under no status, and the outer two are updated and
filed under their statuses. -/
theorem remote_partial_failure_isolated_witness :
    (syncRemote testIndex 7 [] (some [pvA, pvB, pvC])).1.length =
      [pvA, pvB, pvC].length
    ∧ (syncRemote testIndex 7 [] (some [pvA, pvB, pvC])).1[1]? = some pvB
    ∧ remoteEntry testIndex 7 pvB = none
    ∧ ∀ (j : Nat) (q q' : PackageVersion), [pvA, pvB, pvC][j]? = some q →
        q.is_editable = false → update_from_pypi testIndex 7 q = .ok q' →
        (syncRemote testIndex 7 [] (some [pvA, pvB, pvC])).1[j]? = some q'
        ∧ q' ∈ (syncRemote testIndex 7 [] (some [pvA, pvB, pvC])).2.byStatus
            q'.diff_status :=
  remote_partial_failure_isolated testIndex 7 [] [pvA, pvB, pvC] 1 pvB
    .indexUnavailable (by decide) (by decide)

/-- Claim C3: Running `remote()` a second time over the records produced by a
first run, with the index data and clock unchanged, leaves every record
exactly as the first run left it. -/
theorem remote_idempotent (index : Index) (t : Nat)
    (store : List PackageVersion) :
    (syncRemote index t ((syncRemote index t store none).1) none).1 =
      (syncRemote index t store none).1 := by
  have h1 : (syncRemote index t store none).1 =
      (excludeEditable store).map (remoteStep index t) := by
    rw [syncRemote_none]
  rw [h1, syncRemote_none]
  have hfix : excludeEditable
      ((excludeEditable store).map (remoteStep index t)) =
      (excludeEditable store).map (remoteStep index t) := by
    apply List.filter_eq_self.mpr
    intro a ha
    obtain ⟨b, hb, rfl⟩ := List.mem_map.mp ha
    rw [remoteStep_is_editable]
    exact (List.mem_filter.mp hb).2
  rw [hfix, List.map_map]
  apply List.map_congr_left
  intro a _
  exact remoteStep_idem index t a

/-- Claim C4: The mapping `remote()` returns carries the completion
timestamp under `refreshed_at`, and a record is filed under a status
exactly when it is the updated state of a non-editable stored record whose
index update succeeded and whose recomputed `diff_status` is that status;
in particular failed records are filed under no status. -/
theorem remote_results_by_status (index : Index) (t : Nat)
    (store : List PackageVersion) (s : DiffStatus) (q : PackageVersion) :
    (syncRemote index t store none).2.refreshed_at = t
    ∧ (q ∈ (syncRemote index t store none).2.byStatus s ↔
        q.diff_status = s ∧ ∃ p, p ∈ store ∧ p.is_editable = false ∧
          update_from_pypi index t p = .ok q) := by
  rw [syncRemote_none]
  refine ⟨rfl, ?_⟩
  rw [mem_byStatus]
  simp only [List.mem_filterMap]
  constructor
  · rintro ⟨p, hp, hentry⟩
    rw [remoteEntry_eq_some] at hentry
    obtain ⟨hped, hok, hs⟩ := hentry
    have hpstore := List.mem_filter.mp hp
    exact ⟨hs, p, hpstore.1, hped, hok⟩
  · rintro ⟨hs, p, hpst, hped, hok⟩
    refine ⟨p, List.mem_filter.mpr ⟨hpst, by simp [hped]⟩, ?_⟩
    rw [remoteEntry_eq_some]
    exact ⟨hped, hok, hs⟩

/-- Claim C7: With no explicit batch, `remote()` processes exactly the stored
records whose `is_editable` is false. -/
theorem remote_default_set (store : List PackageVersion)
    (pv : PackageVersion) :
    pv ∈ remoteTargets store none ↔ pv ∈ store ∧ pv.is_editable = false := by
  simp [remoteTargets, excludeEditable, List.mem_filter]

/-- In a successful `check_pypi` run, every editable record of the queryset
reappears unchanged at its position in the outcome. -/
theorem check_pypi_editable_fixed (index : Index) (t : Nat) :
    ∀ (qs out : List PackageVersion), check_pypi index t qs = .ok out →
      ∀ (i : Nat) (p : PackageVersion), qs[i]? = some p →
        p.is_editable = true → out[i]? = some p := by
  intro qs
  induction qs with
  | nil =>
    intro out h i p hget _
    simp only [check_pypi] at h
    obtain rfl : ([] : List PackageVersion) = out := by simpa using h
    simp at hget
  | cons q rest ih =>
    intro out h i p hget hed
    cases hq : q.is_editable with
    | true =>
      cases hr : check_pypi index t rest with
      | ok out' =>
        simp only [check_pypi, hq, if_true, hr] at h
        obtain rfl : q :: out' = out := by simpa using h
        cases i with
        | zero =>
          obtain rfl : q = p := by simpa using hget
          simp
        | succ n =>
          simp only [List.getElem?_cons_succ] at hget ⊢
          exact ih out' hr n p hget hed
      | error e =>
        simp only [check_pypi, hq, if_true, hr] at h
        exact absurd h (by simp)
    | false =>
      cases hu : update_from_pypi index t q with
      | error e =>
        simp only [check_pypi, hq, hu] at h
        exact absurd h (by simp)
      | ok q' =>
        cases hr : check_pypi index t rest with
        | ok out' =>
          simp only [check_pypi, hq, hu, hr] at h
          obtain rfl : q' :: out' = out := by simpa using h
          cases i with
          | zero =>
            obtain rfl : q = p := by simpa using hget
            exact absurd hed (by simp [hq])
          | succ n =>
            simp only [List.getElem?_cons_succ] at hget ⊢
            exact ih out' hr n p hget hed
        | error e =>
          simp only [check_pypi, hq, hu, hr] at h
          exact absurd h (by simp)

/-- Claim C2: An editable record is never reconciled against the index: the
default `remote()` batch excludes it, the `remote()` loop body leaves it
unchanged and files no result for it, and the admin `check_pypi` action
passes it through untouched — so its index-derived fields
(`latest_version`, `next_version`, `diff_status`) keep whatever unset or
unknown values they had. -/
theorem editable_records_never_reconciled (pv : PackageVersion)
    (h : pv.is_editable = true) :
    (∀ store, pv ∉ excludeEditable store)
    ∧ (∀ (index : Index) (t : Nat), remoteStep index t pv = pv)
    ∧ (∀ (index : Index) (t : Nat), remoteEntry index t pv = none)
    ∧ (∀ (index : Index) (t : Nat) (qs out : List PackageVersion),
        check_pypi index t qs = .ok out →
        ∀ (i : Nat), qs[i]? = some pv → out[i]? = some pv) := by
  refine ⟨?_, ?_, ?_, ?_⟩
  · intro store hmem
    have := (List.mem_filter.mp hmem).2
    simp [h] at this
  · intro index t
    unfold remoteStep
    simp [h]
  · intro index t
    unfold remoteEntry
    simp [h]
  · intro index t qs out hok i hget
    exact check_pypi_editable_fixed index t qs out hok i pv hget h

/-- The closed instance of C2 at the editable record `pvE`. -/
theorem editable_records_never_reconciled_witness :
    (∀ store, pvE ∉ excludeEditable store)
    ∧ (∀ (index : Index) (t : Nat), remoteStep index t pvE = pvE)
    ∧ (∀ (index : Index) (t : Nat), remoteEntry index t pvE = none)
    ∧ (∀ (index : Index) (t : Nat) (qs out : List PackageVersion),
        check_pypi index t qs = .ok out →
        ∀ (i : Nat), qs[i]? = some pvE → out[i]? = some pvE) :=
  editable_records_never_reconciled pvE (by decide)

/-! ### Lemmas about the local loop -/

/-- The function `create_package_version` never hands back a record: `.save()` returns
`None` on the success path and the `IntegrityError` path returns nothing. -/
theorem create_pv_snd_none (store : List PackageVersion) (r : Requirement) :
    (create_package_version store r).2 = none := by
  unfold create_package_version
  cases createRecord store (PackageVersion.fromRequirement r) with
  | none => rfl
  | some store' => rfl

/-- Because creation returns no record, every step of the `local` loop
resolves its record through the get-by-name lookup on the post-creation
store. -/
theorem localStep_eq (store : List PackageVersion) (r : Requirement) :
    localStep store r =
      ((create_package_version store r).1,
       getByName (create_package_version store r).1 (reqKey r)) := by
  have h := create_pv_snd_none store r
  cases hc : create_package_version store r with
  | mk s' pv? =>
    rw [hc] at h
    simp only at h
    subst h
    simp [localStep, hc]

/-- Claim C5: A requirement whose lookup key already names a stored record
leaves the store untouched at its step — the duplicate-name creation
failure is absorbed — and the pre-existing record itself is reused and
prepended to the result list of the remaining run. -/
theorem local_existing_record_reused (store : List PackageVersion)
    (r : Requirement) (rest : List Requirement) (pv₀ : PackageVersion)
    (h : getByName store (reqKey r) = some pv₀) :
    localStep store r = (store, some pv₀)
    ∧ syncLocal store (r :: rest) =
        ((syncLocal store rest).1, pv₀ :: (syncLocal store rest).2) := by
  obtain ⟨n, hk, hfind⟩ : ∃ n, reqKey r = some n ∧
      store.find? (fun pv => decide (pv.package_name = n)) = some pv₀ := by
    unfold getByName at h
    cases hk : reqKey r with
    | none => rw [hk] at h; exact absurd h (by simp)
    | some n => rw [hk] at h; exact ⟨n, rfl, h⟩
  have hname : pv₀.package_name = n := by
    have := List.find?_some hfind
    simpa using this
  have hmem : pv₀ ∈ store := List.mem_of_find?_eq_some hfind
  have hfr : (PackageVersion.fromRequirement r).package_name = n := by
    show (reqKey r).getD "" = n
    rw [hk]
    rfl
  have hany : store.any
      (fun q => decide
        (q.package_name = (PackageVersion.fromRequirement r).package_name)) =
      true := by
    apply List.any_eq_true.mpr
    exact ⟨pv₀, hmem, by simp [hname, hfr]⟩
  have hcreate : create_package_version store r = (store, none) := by
    unfold create_package_version createRecord
    rw [if_pos hany]
  have hstep : localStep store r = (store, some pv₀) := by
    rw [localStep_eq, hcreate]
    exact Prod.ext rfl h
  refine ⟨hstep, ?_⟩
  simp only [syncLocal, hstep]

/-- The closed instance of C5: syncing a requirement for the already stored
record `pvA` changes nothing and returns the stored record. -/
theorem local_existing_record_reused_witness :
    localStep [pvA] reqA = ([pvA], some pvA)
    ∧ syncLocal [pvA] [reqA] =
        ((syncLocal [pvA] []).1, pvA :: (syncLocal [pvA] []).2) :=
  local_existing_record_reused [pvA] reqA [] pvA (by decide)

/-- Claim C6: The `local` loop contributes exactly one record for a
requirement whose step finds (or creates) a record, contributes nothing for
a requirement whose step resolves no record — the run continuing with the
remaining requirements instead of aborting — and so never returns more
records than there are requirements. -/
theorem local_one_record_per_found_requirement
    (store s₁ : List PackageVersion) (r : Requirement)
    (rest : List Requirement) :
    (localStep store r = (s₁, none) →
      syncLocal store (r :: rest) = syncLocal s₁ rest)
    ∧ (∀ pv, localStep store r = (s₁, some pv) →
        syncLocal store (r :: rest) =
          ((syncLocal s₁ rest).1, pv :: (syncLocal s₁ rest).2))
    ∧ ∀ (st : List PackageVersion) (reqs : List Requirement),
        (syncLocal st reqs).2.length ≤ reqs.length := by
  refine ⟨?_, ?_, ?_⟩
  · intro hstep
    simp only [syncLocal, hstep]
  · intro pv hstep
    simp only [syncLocal, hstep]
  · intro st reqs
    induction reqs generalizing st with
    | nil => simp [syncLocal]
    | cons a as ih =>
      cases hstep : localStep st a with
      | mk s' pv? =>
        cases pv? with
        | some pv =>
          simp only [syncLocal, hstep, List.length_cons]
          exact Nat.succ_le_succ (ih s')
        | none =>
          simp only [syncLocal, hstep, List.length_cons]
          exact Nat.le_succ_of_le (ih s')

/-- The closed instance of C6: a blank requirement (no name, no URI) whose
creation fails against a store holding a nameless record and whose lookup
finds nothing is skipped, contributing no record. -/
theorem local_one_record_per_found_requirement_witness :
    syncLocal [pvBlank] [reqBlank] = syncLocal [pvBlank] [] :=
  (local_one_record_per_found_requirement [pvBlank] [pvBlank] reqBlank
    []).1 (by decide)

/-- Claim C10: `create_package_version` returns no record for any
requirement, so any record a `local` step resolves is the one the
get-by-name fallback found in the post-creation store under the
requirement's key. -/
theorem create_returns_none_lookup_only (store : List PackageVersion)
    (r : Requirement) :
    (create_package_version store r).2 = none
    ∧ ∀ (s : List PackageVersion) (pv : PackageVersion),
        localStep store r = (s, some pv) →
        getByName s (reqKey r) = some pv := by
  refine ⟨create_pv_snd_none store r, ?_⟩
  intro s pv h
  rw [localStep_eq] at h
  have h1 : (create_package_version store r).1 = s := congrArg Prod.fst h
  have h2 : getByName (create_package_version store r).1 (reqKey r) =
      some pv := congrArg Prod.snd h
  rw [h1] at h2
  exact h2

/-- The closed instance of C10 at a duplicate requirement: creation returns
nothing and the returned record is the one the lookup found. -/
theorem create_returns_none_lookup_only_witness :
    (create_package_version [pvA] reqA).2 = none
    ∧ getByName [pvA] (reqKey reqA) = some pvA :=
  ⟨(create_returns_none_lookup_only [pvA] reqA).1,
   (create_returns_none_lookup_only [pvA] reqA).2 [pvA] pvA (by decide)⟩

/-- Claim C8: `clean()` deletes every stored record unconditionally: listing
all records afterwards yields the empty set, and no record survives. -/
theorem clean_removes_all (store : List PackageVersion)
    (pv : PackageVersion) :
    allRecords (clean store) = [] ∧ pv ∉ allRecords (clean store) :=
  ⟨rfl, by simp [clean, allRecords]⟩

/-- Claim C9: The admin "Update available" filter's three values do not cover
every record: `"-1"` selects exactly the records with null
`latest_version`, and a record with null `current_version` but non-null
`latest_version` is selected by none of `"1"`, `"0"`, `"-1"`. -/
theorem update_filter_gap (qs : List PackageVersion) (p : PackageVersion) :
    (p ∈ updateAvailableFilter (some "-1") qs ↔
      p ∈ qs ∧ p.latest_version = none)
    ∧ (p.current_version = none → p.latest_version ≠ none →
        p ∉ updateAvailableFilter (some "1") qs
        ∧ p ∉ updateAvailableFilter (some "0") qs
        ∧ p ∉ updateAvailableFilter (some "-1") qs) := by
  have hm1 : updateAvailableFilter (some "-1") qs =
      qs.filter (fun q => q.latest_version.isNone) := by
    unfold updateAvailableFilter
    rw [if_pos rfl]
  have h0 : updateAvailableFilter (some "0") qs =
      qs.filter (fun q => q.current_version.isSome && q.latest_version.isSome
        && decide (q.latest_version = q.current_version)) := by
    unfold updateAvailableFilter
    rw [if_neg (by decide), if_pos rfl]
  have h1 : updateAvailableFilter (some "1") qs =
      qs.filter (fun q => q.current_version.isSome && q.latest_version.isSome
        && !decide (q.latest_version = q.current_version)) := by
    unfold updateAvailableFilter
    rw [if_neg (by decide), if_neg (by decide), if_pos rfl]
  constructor
  · rw [hm1]
    simp [List.mem_filter, Option.isNone_iff_eq_none]
  · intro hc hl
    refine ⟨?_, ?_, ?_⟩
    · rw [h1]
      intro hmem
      have := (List.mem_filter.mp hmem).2
      simp [hc] at this
    · rw [h0]
      intro hmem
      have := (List.mem_filter.mp hmem).2
      simp [hc] at this
    · rw [hm1]
      intro hmem
      have := (List.mem_filter.mp hmem).2
      simp [Option.isNone_iff_eq_none, hl] at this

/-- The closed instance of C9 at a record with null current version and a
known latest version: no filter value selects it. -/
theorem update_filter_gap_witness :
    (pvGap ∈ updateAvailableFilter (some "-1") [pvGap] ↔
      pvGap ∈ [pvGap] ∧ pvGap.latest_version = none)
    ∧ pvGap ∉ updateAvailableFilter (some "1") [pvGap]
    ∧ pvGap ∉ updateAvailableFilter (some "0") [pvGap]
    ∧ pvGap ∉ updateAvailableFilter (some "-1") [pvGap] :=
  ⟨(update_filter_gap [pvGap] pvGap).1,
   (update_filter_gap [pvGap] pvGap).2 (by decide) (by decide)⟩

end PackageMonitor
